import Mathlib

/-!
Shallow embedding of the Curator repository's rate-limited paginator
(from `option_bot/polygon.py`), its quote-download batching and pool
dispatch (from `curator/data_pipeline/download.py`), and its stage
orchestration (from `option_bot/data_pipeline/orchestrator.py`), together
with theorems checking the natural-language specification against the
embedded code.
-/

/-- `PolygonPaginator.MAX_QUERY_PER_MINUTE` from `option_bot/polygon.py`. -/
def MAX_QUERY_PER_MINUTE : Nat := 4

/-- One entry of `PolygonPaginator.query_time_log`: the upstream request id
and the wall-clock timestamp (`time.time()`, modelled as a rational number
of seconds) recorded when the response arrived. -/
structure LogEntry where
  request_id : Option Nat
  query_timestamp : Rat
deriving DecidableEq

/-- Mutable state of a `PolygonPaginator` as set up by
`PolygonPaginator.__init__`: the `query_count`, the `query_time_log`, and
the accumulated raw `results` (a decoded response body is modelled as an
opaque `Nat`). -/
structure PagState where
  query_count : Nat
  query_time_log : List LogEntry
  results : List Nat
deriving DecidableEq

/-- The state that `PolygonPaginator.__init__` establishes:
`query_count = 0`, `query_time_log = []`, `results = []`. -/
def initPagState : PagState := ⟨0, [], []⟩

/-- `PolygonPaginator._api_sleep_time`: start from `sleep_time = 60`; if more
than two requests are logged, take the ceiling of (last logged timestamp
minus first logged timestamp) and keep it only when it is below 60.  In the
source, `timestamp_to_datetime` on both entries followed by
`total_seconds()` on the difference is the identity on our rational-second
timestamps. -/
def api_sleep_time (qlog : List LogEntry) : Int :=
  if h : 2 < qlog.length then
    let hne : qlog ≠ [] := List.length_pos.mp (Nat.lt_of_le_of_lt (Nat.zero_le 2) h)
    let diff : Int :=
      Int.ceil ((qlog.getLast hne).query_timestamp - (qlog.head hne).query_timestamp)
    if diff < 60 then diff else 60
  else 60

/-- One upstream HTTP exchange as `PolygonPaginator.query_all` sees it: the
status code, the decoded JSON body (opaque `Nat`), and the `request_id` and
`next_url` fields read off the response. -/
structure PolyResponse where
  status : Nat
  body : Nat
  request_id : Option Nat
  next_url : Option String
deriving DecidableEq

/-- Observable actions of `query_all`: an `asyncio.sleep` of the computed
duration, or an outgoing `requests.get` for a url (tagged with the
`overload` flag of the `query_all` call that issued it). -/
inductive QEvent where
  | sleep (d : Int)
  | request (url : String) (overload : Bool)
deriving DecidableEq

/-- How a `query_all` call ends: normal return, `raise_for_status()` on a
non-200/429 status, or the response script running out (the model's stand-in
for an endpoint that never stops answering). -/
inductive Outcome where
  | ok
  | httpError (status : Nat)
  | scriptExhausted
deriving DecidableEq

/-- Lines 47-48 of `option_bot/polygon.py`: append
`{"request_id": ..., "query_timestamp": time.time()}` to the log and
increment `query_count`. -/
def recordRequest (s : PagState) (resp : PolyResponse) (now : Rat) : PagState :=
  { s with
    query_time_log := s.query_time_log ++ [⟨resp.request_id, now⟩],
    query_count := s.query_count + 1 }

/-- `PolygonPaginator.query_all`, driven by a response script: each
`requests.get` consumes the head of the script (a response paired with the
`time.time()` value observed on receipt).  Before the request, if
`query_count >= MAX_QUERY_PER_MINUTE` or `overload` is set, the paginator
sleeps `_api_sleep_time()` and resets `query_count` and `query_time_log`.
After recording the request: on 200 the body is appended to `results` and a
present `next_url` is followed (with `overload` back at its default
`False`); on 429 the same url is retried with `overload=True`; any other
status raises. -/
def query_all :
    PagState → String → Bool → List (PolyResponse × Rat) →
      PagState × List QEvent × Outcome
  | s, _, _, [] => (s, [], Outcome.scriptExhausted)
  | s, url, overload, (resp, now) :: rest =>
    let slept : Bool := decide (MAX_QUERY_PER_MINUTE ≤ s.query_count) || overload
    let preEvents : List QEvent :=
      if slept then [QEvent.sleep (api_sleep_time s.query_time_log)] else []
    let s1 : PagState :=
      if slept then { s with query_count := 0, query_time_log := [] } else s
    let s2 := recordRequest s1 resp now
    if resp.status = 200 then
      let s3 := { s2 with results := s2.results ++ [resp.body] }
      match resp.next_url with
      | some nu =>
        let r := query_all s3 nu false rest
        (r.1, preEvents ++ QEvent.request url overload :: r.2.1, r.2.2)
      | none => (s3, preEvents ++ [QEvent.request url overload], Outcome.ok)
    else if resp.status = 429 then
      let r := query_all s2 url true rest
      (r.1, preEvents ++ QEvent.request url overload :: r.2.1, r.2.2)
    else
      (s2, preEvents ++ [QEvent.request url overload], Outcome.httpError resp.status)

/-- Recognizer for outgoing-request events in a `query_all` trace. -/
def QEvent.isRequestEvent : QEvent → Bool
  | QEvent.request _ _ => true
  | _ => false

/-- A response script shaped like an n-page pagination chain: every page has
status 200, every page except the last carries a `next_url`, and the last
page carries none. -/
def chain_script : List (PolyResponse × Rat) → Bool
  | [] => false
  | [(r, _)] => r.status == 200 && r.next_url.isNone
  | (r, _) :: rest => r.status == 200 && r.next_url.isSome && chain_script rest

/-- The invariant relating the paginator's two bookkeeping fields:
`query_count` always equals the length of `query_time_log`. -/
def pag_inv (s : PagState) : Prop := s.query_count = s.query_time_log.length

/-- `OptionTicker` from `curator/db_tools/utils.py`: the namedtuple
`(o_ticker, id, expiration_date, underlying_ticker)` (the expiration date is
kept opaque as a string). -/
structure OptionTicker where
  o_ticker : String
  id : Nat
  expiration_date : String
  underlying_ticker : String
deriving DecidableEq

/-- `BATCH_SIZE_OTICKERS` from `download_options_quotes` in
`curator/data_pipeline/download.py`. -/
def BATCH_SIZE_OTICKERS : Nat := 1000

/-- Python `range(0, stop, step)`: the indices `0, step, 2*step, ...` below
`stop` (empty when `stop = 0`; `step = 0` never occurs in the source, where
the step is the literal 1000). -/
def range_step (stop step : Nat) : List Nat :=
  (List.range ((stop + step - 1) / step)).map (· * step)

/-- The slices `xs[i : i + size]` for `i in range(0, len(xs), size)`. -/
def sliceChunks (xs : List α) (size : Nat) : List (List α) :=
  (range_step xs.length size).map (fun i => (xs.drop i).take size)

/-- The per-pool-run batches dispatched by `download_options_quotes` in
`curator/data_pipeline/download.py`: it filters `o_tickers` down to those
whose `underlying_ticker` equals `ticker` and then slices the result into
`BATCH_SIZE_OTICKERS`-sized chunks, awaiting one `api_quote_downloader`
pool run per chunk. -/
def download_options_quotes_batches (ticker : String) (o_tickers : List OptionTicker) :
    List (List OptionTicker) :=
  let batch_o_tickers := o_tickers.filter (fun x => x.underlying_ticker == ticker)
  sliceChunks batch_o_tickers BATCH_SIZE_OTICKERS

/-- Observable actions of `api_pool_downloader` from
`curator/data_pipeline/download.py`: constructing the worker pool,
dispatching one request task per generated url argument, closing the pool,
or logging the no-data message. -/
inductive DlEvent (β : Type) where
  | createPool
  | request (arg : β)
  | closePool
  | logNoData (batch_num : Nat)
deriving DecidableEq

/-- `api_pool_downloader` from `curator/data_pipeline/download.py`:
`url_args = paginator.generate_request_args(args_data)`; when `url_args` is
non-empty (Python truthiness) a pool is built and `paginator.download_data`
is starmapped over all of `url_args`; otherwise, when `batch_num` is truthy,
only the no-data message is logged.  The request-argument generator of the
endpoint-specific paginator is a parameter. -/
def api_pool_downloader (gen : Option (List α) → List β)
    (args_data : Option (List α)) (batch_num : Option Nat) : List (DlEvent β) :=
  let url_args := gen args_data
  if url_args.isEmpty then
    match batch_num with
    | some b => if b ≠ 0 then [DlEvent.logNoData b] else []
    | none => []
  else
    DlEvent.createPool :: url_args.map DlEvent.request ++ [DlEvent.closePool]

/-- Python truthiness test used by the orchestrator's `if not ticker_lookup`
and `if not o_tickers` memo checks: `none` models a variable still at its
`None` initialization, and an empty resolved collection is falsy too. -/
def falsy : Option (List α) → Bool
  | none => true
  | some l => l.isEmpty

/-- Observable actions of the orchestrator's per-stage work in
`option_bot/data_pipeline/orchestrator.py`. -/
inductive OrchEvent where
  | downloadStockMetadata
  | uploadStockMetadata
  | pullTickersFromDb
  | downloadStockPrices
  | uploadStockPrices
  | downloadOptionsContracts
  | uploadOptionsContracts
  | generateOTickerLookup (unexpired : Bool)
  | downloadOptionsPrices
  | uploadOptionsPrices
  | downloadOptionsSnapshots
  | uploadOptionsSnapshots
  | downloadOptionsQuotes
  | uploadOptionsQuotes
deriving DecidableEq

/-- Recognizer for the option-ticker lookup resolution events
(`generate_o_ticker_lookup` calls) in an orchestrator trace. -/
def is_o_ticker_query : OrchEvent → Bool
  | OrchEvent.generateOTickerLookup _ => true
  | _ => false

/-- The function import_partial from `option_bot/data_pipeline/orchestrator.py`
as an event trace.  `sel` is the selected stage list, `tl` the rows the
ticker database query would return, and `oq` maps the `unexpired` flag to
the option tickers `generate_o_ticker_lookup` would return.  Stages run in
numeric order behind `if n in partial` checks; stage 2 assigns
`ticker_lookup`, stage 3 re-queries it only when it is falsy, stage 4
assigns `o_tickers` unconditionally, and stages 5 and 6 re-query `o_tickers`
only when it is falsy (stage 5 with `unexpired=True`). -/
def orchestratorStageRun (sel : List Nat) (tl : List (String × Nat))
    (oq : Bool → List OptionTicker) : List OrchEvent :=
  let ev1 : List OrchEvent :=
    if 1 ∈ sel then [OrchEvent.downloadStockMetadata, OrchEvent.uploadStockMetadata] else []
  let tl2 : Option (List (String × Nat)) := if 2 ∈ sel then some tl else none
  let ev2 : List OrchEvent :=
    if 2 ∈ sel then
      [OrchEvent.pullTickersFromDb, OrchEvent.downloadStockPrices, OrchEvent.uploadStockPrices]
    else []
  let _tl3 : Option (List (String × Nat)) :=
    if 3 ∈ sel ∧ falsy tl2 = true then some tl else tl2
  let ev3 : List OrchEvent :=
    if 3 ∈ sel then
      (if falsy tl2 = true then [OrchEvent.pullTickersFromDb] else []) ++
        [OrchEvent.downloadOptionsContracts, OrchEvent.uploadOptionsContracts]
    else []
  let ot4 : Option (List OptionTicker) := if 4 ∈ sel then some (oq false) else none
  let ev4 : List OrchEvent :=
    if 4 ∈ sel then
      [OrchEvent.generateOTickerLookup false, OrchEvent.downloadOptionsPrices,
        OrchEvent.uploadOptionsPrices]
    else []
  let ot5 : Option (List OptionTicker) :=
    if 5 ∈ sel ∧ falsy ot4 = true then some (oq true) else ot4
  let ev5 : List OrchEvent :=
    if 5 ∈ sel then
      (if falsy ot4 = true then [OrchEvent.generateOTickerLookup true] else []) ++
        [OrchEvent.downloadOptionsSnapshots, OrchEvent.uploadOptionsSnapshots]
    else []
  let ev6 : List OrchEvent :=
    if 6 ∈ sel then
      (if falsy ot5 = true then [OrchEvent.generateOTickerLookup false] else []) ++
        [OrchEvent.downloadOptionsQuotes, OrchEvent.uploadOptionsQuotes]
    else []
  ev1 ++ ev2 ++ ev3 ++ ev4 ++ ev5 ++ ev6

/-- `remove_tickers_from_universe` from
`option_bot/data_pipeline/orchestrator.py` (identical in
`option_bot/orchestrator.py`): loop over the tickers, awaiting
`delete_stock_ticker` on each.  The deletion collaborator is modelled as a
success oracle `ok`; the body has no exception handling, so a deletion that
raises (`ok t = false`) propagates out of the loop.  The result is the list
of tickers for which a deletion call was issued, paired with the ticker
whose deletion raised, if any. -/
def remove_tickers_from_universe (ok : String → Bool) :
    List String → List String × Option String
  | [] => ([], none)
  | t :: ts =>
    if ok t then
      let r := remove_tickers_from_universe ok ts
      (t :: r.1, r.2)
    else ([t], some t)

/-- Claim C1: `_api_sleep_time` returns the full 60-second window when the
request time log holds fewer than 3 entries, and otherwise the lesser of 60
and the ceiling of (timestamp of the last logged request minus timestamp of
the first logged request); in particular a log with first entry at time `T`
and last entry at `T + 5` seconds (and at least 3 entries) yields 5,
not 60. -/
theorem api_sleep_time_spec (qlog : List LogEntry) :
    (qlog.length < 3 → api_sleep_time qlog = 60) ∧
    (3 ≤ qlog.length → ∀ e0 e1, qlog.head? = some e0 → qlog.getLast? = some e1 →
      api_sleep_time qlog = min 60 (Int.ceil (e1.query_timestamp - e0.query_timestamp))) ∧
    (3 ≤ qlog.length → ∀ (T : Rat) e0 e1, qlog.head? = some e0 → qlog.getLast? = some e1 →
      e0.query_timestamp = T → e1.query_timestamp = T + 5 →
      api_sleep_time qlog = 5) := by
  have key : 3 ≤ qlog.length → ∀ e0 e1, qlog.head? = some e0 → qlog.getLast? = some e1 →
      api_sleep_time qlog = min 60 (Int.ceil (e1.query_timestamp - e0.query_timestamp)) := by
    intro h e0 e1 he0 he1
    have h2 : 2 < qlog.length := by omega
    have hne : qlog ≠ [] := by
      intro hnil; rw [hnil] at h; simp at h
    have he0' : qlog.head hne = e0 := by
      rw [List.head?_eq_head hne] at he0
      exact Option.some.inj he0
    have he1' : qlog.getLast hne = e1 := by
      rw [List.getLast?_eq_getLast qlog hne] at he1
      exact Option.some.inj he1
    simp only [api_sleep_time, dif_pos h2, he0', he1']
    rcases lt_or_le (Int.ceil (e1.query_timestamp - e0.query_timestamp)) 60 with hlt | hle
    · rw [if_pos hlt, min_eq_right hlt.le]
    · rw [if_neg (not_lt.mpr hle), min_eq_left hle]
  refine ⟨?_, key, ?_⟩
  · intro h
    have h2 : ¬ 2 < qlog.length := by omega
    simp [api_sleep_time, h2]
  · intro h T e0 e1 he0 he1 ht0 ht1
    rw [key h e0 e1 he0 he1, ht0, ht1]
    have : T + 5 - T = (5 : Rat) := by ring
    rw [this]
    simp

theorem api_sleep_time_spec_witness :
    api_sleep_time [⟨none, 0⟩, ⟨none, 2⟩] = 60 ∧
    api_sleep_time [⟨none, 0⟩, ⟨none, 2⟩, ⟨none, 5⟩] = 5 :=
  ⟨(api_sleep_time_spec _).1 (by decide),
   (api_sleep_time_spec _).2.2 (by decide) 0 ⟨none, 0⟩ ⟨none, 5⟩ (by decide) (by decide)
     (by decide) (by simp)⟩

/-- Claim C2: `query_all` sleeps before issuing a request exactly when the
recorded request count has reached `MAX_QUERY_PER_MINUTE` or the caller
signals the overload condition, and immediately after that sleep, and before
the new request is sent, both the request counter and the request time log
are reset to empty (observed here on a single-exchange script: the final
state carries exactly the one new entry and a count of 1, so both fields
were 0 and `[]` when the request was recorded). -/
theorem query_all_throttle_reset (s : PagState) (url : String) (overload : Bool)
    (resp : PolyResponse) (now : Rat) (rest : List (PolyResponse × Rat)) :
    ((MAX_QUERY_PER_MINUTE ≤ s.query_count ∨ overload = true) ↔
      (query_all s url overload ((resp, now) :: rest)).2.1.head? =
        some (QEvent.sleep (api_sleep_time s.query_time_log))) ∧
    (resp.status = 200 → resp.next_url = none →
      (MAX_QUERY_PER_MINUTE ≤ s.query_count ∨ overload = true) →
      (query_all s url overload ((resp, now) :: rest)).2.1 =
          [QEvent.sleep (api_sleep_time s.query_time_log), QEvent.request url overload] ∧
        (query_all s url overload ((resp, now) :: rest)).1.query_count = 1 ∧
        (query_all s url overload ((resp, now) :: rest)).1.query_time_log =
          [⟨resp.request_id, now⟩]) ∧
    (resp.status = 200 → resp.next_url = none →
      ¬ (MAX_QUERY_PER_MINUTE ≤ s.query_count ∨ overload = true) →
      (query_all s url overload ((resp, now) :: rest)).2.1 = [QEvent.request url overload] ∧
        (query_all s url overload ((resp, now) :: rest)).1.query_count = s.query_count + 1 ∧
        (query_all s url overload ((resp, now) :: rest)).1.query_time_log =
          s.query_time_log ++ [⟨resp.request_id, now⟩]) := by
  by_cases hcond : MAX_QUERY_PER_MINUTE ≤ s.query_count ∨ overload = true
  · have hslept : (decide (MAX_QUERY_PER_MINUTE ≤ s.query_count) || overload) = true := by
      simp only [Bool.or_eq_true, decide_eq_true_eq]
      exact hcond
    refine ⟨⟨fun _ => ?_, fun _ => hcond⟩, fun h200 hnu _ => ?_, fun _ _ hn => absurd hcond hn⟩
    · simp only [query_all, hslept, if_true]
      split <;> (try split) <;> simp
    · simp [query_all, hslept, h200, hnu, recordRequest]
  · have hA : ¬ MAX_QUERY_PER_MINUTE ≤ s.query_count := fun h => hcond (Or.inl h)
    have hB : overload = false := by
      cases overload
      · rfl
      · exact absurd (Or.inr rfl) hcond
    have hslept : (decide (MAX_QUERY_PER_MINUTE ≤ s.query_count) || overload) = false := by
      simp [hA, hB]
    refine ⟨⟨fun h => absurd h hcond, fun h => ?_⟩, fun _ _ h => absurd h hcond,
      fun h200 hnu _ => ?_⟩
    · exfalso
      simp only [query_all, hslept, Bool.false_eq_true, if_false] at h
      rcases hmatch : resp.next_url with _ | nu <;>
        rcases h200 : decide (resp.status = 200) with _ | _ <;>
          rcases h429 : decide (resp.status = 429) with _ | _ <;>
            simp_all
    · simp [query_all, hslept, h200, hnu, recordRequest]

theorem query_all_throttle_reset_witness :
    ((MAX_QUERY_PER_MINUTE ≤ (⟨4, [], []⟩ : PagState).query_count ∨ false = true) ↔
      (query_all ⟨4, [], []⟩ "u" false [(⟨200, 9, none, none⟩, 0)]).2.1.head? =
        some (QEvent.sleep (api_sleep_time (⟨4, [], []⟩ : PagState).query_time_log))) ∧
    (query_all ⟨4, [], []⟩ "u" false [(⟨200, 9, none, none⟩, 0)]).2.1 =
        [QEvent.sleep (api_sleep_time (⟨4, [], []⟩ : PagState).query_time_log),
          QEvent.request "u" false] ∧
      (query_all ⟨4, [], []⟩ "u" false [(⟨200, 9, none, none⟩, 0)]).1.query_count = 1 ∧
      (query_all ⟨4, [], []⟩ "u" false [(⟨200, 9, none, none⟩, 0)]).1.query_time_log =
        [⟨(⟨200, 9, none, none⟩ : PolyResponse).request_id, 0⟩] :=
  ⟨(query_all_throttle_reset ⟨4, [], []⟩ "u" false ⟨200, 9, none, none⟩ 0 []).1,
   (query_all_throttle_reset ⟨4, [], []⟩ "u" false ⟨200, 9, none, none⟩ 0 []).2.1
     (by decide) (by decide) (Or.inl (by decide))⟩

/-- Claim C3: for an endpoint serving `n` pages where every page except the
last carries a `next_url` cursor and the last does not, a single `query_all`
invocation performs exactly `n` fetches, appends all `n` decoded page bodies
to the accumulated results in page order, and stops following cursors when
`next_url` is absent (the script model consumes page `N`'s response before
the page `N+1` request exists). -/
theorem query_all_pagination_exhaustion (s : PagState) (url : String) (overload : Bool)
    (pages : List (PolyResponse × Rat)) (h : chain_script pages = true) :
    (query_all s url overload pages).2.2 = Outcome.ok ∧
    (query_all s url overload pages).1.results =
      s.results ++ pages.map (fun p => p.1.body) ∧
    (query_all s url overload pages).2.1.countP QEvent.isRequestEvent = pages.length := by
  induction pages generalizing s url overload with
  | nil => simp [chain_script] at h
  | cons p rest ih =>
    obtain ⟨resp, now⟩ := p
    cases rest with
    | nil =>
      simp only [chain_script, Bool.and_eq_true, beq_iff_eq,
        Option.isNone_iff_eq_none] at h
      obtain ⟨h200, hnone⟩ := h
      cases hsl : (decide (MAX_QUERY_PER_MINUTE ≤ s.query_count) || overload) <;>
        simp [query_all, hsl, h200, hnone, recordRequest, QEvent.isRequestEvent,
          List.countP_cons, List.countP_append]
    | cons q rest2 =>
      simp only [chain_script, Bool.and_eq_true, beq_iff_eq] at h
      obtain ⟨⟨h200, hsome⟩, hrest⟩ := h
      obtain ⟨nu, hnu⟩ := Option.isSome_iff_exists.mp hsome
      have IH := fun (s' : PagState) (u' : String) (o' : Bool) => ih s' u' o' hrest
      generalize q :: rest2 = tail at IH ⊢
      cases hsl : (decide (MAX_QUERY_PER_MINUTE ≤ s.query_count) || overload) <;>
        · simp only [query_all, hsl, h200, hnu, recordRequest, if_true, if_false,
            Bool.false_eq_true, Bool.true_eq_false, ite_true, ite_false,
            List.map_cons, List.length_cons]
          refine ⟨(IH _ _ _).1, ?_, ?_⟩
          · rw [(IH _ _ _).2.1]
            simp
          · simp [List.countP_cons, List.countP_append, QEvent.isRequestEvent,
              (IH _ _ _).2.2]

theorem query_all_pagination_exhaustion_witness :
    (query_all initPagState "u1" false
        [(⟨200, 1, none, some "u2"⟩, 0), (⟨200, 2, none, some "u3"⟩, 1),
          (⟨200, 3, none, none⟩, 2)]).2.2 = Outcome.ok ∧
    (query_all initPagState "u1" false
        [(⟨200, 1, none, some "u2"⟩, 0), (⟨200, 2, none, some "u3"⟩, 1),
          (⟨200, 3, none, none⟩, 2)]).1.results =
      initPagState.results ++
        ([(⟨200, 1, none, some "u2"⟩, 0), (⟨200, 2, none, some "u3"⟩, 1),
            (⟨200, 3, none, none⟩, 2)] : List (PolyResponse × Rat)).map (fun p => p.1.body) ∧
    (query_all initPagState "u1" false
        [(⟨200, 1, none, some "u2"⟩, 0), (⟨200, 2, none, some "u3"⟩, 1),
          (⟨200, 3, none, none⟩, 2)]).2.1.countP QEvent.isRequestEvent =
      ([(⟨200, 1, none, some "u2"⟩, 0), (⟨200, 2, none, some "u3"⟩, 1),
          (⟨200, 3, none, none⟩, 2)] : List (PolyResponse × Rat)).length :=
  query_all_pagination_exhaustion initPagState "u1" false
    [(⟨200, 1, none, some "u2"⟩, 0), (⟨200, 2, none, some "u3"⟩, 1),
      (⟨200, 3, none, none⟩, 2)] (by decide)

/-- Claim C4: when a fetch returns HTTP 429, `query_all` retries the same
request with the overload flag set, which forces the rate-limiter sleep
before the retry; for an endpoint that returns 429 once and then 200,
exactly one throttled retry occurs (two requests in total, the second one
for the same url with `overload=True` and immediately preceded by a sleep),
the call ends successfully, and the 429 is never surfaced as an error. -/
theorem query_all_429_retry (s : PagState) (url : String) (overload : Bool)
    (r1 r2 : PolyResponse) (t1 t2 : Rat) (h429 : r1.status = 429)
    (h200 : r2.status = 200) (hnu : r2.next_url = none) :
    (query_all s url overload [(r1, t1), (r2, t2)]).2.2 = Outcome.ok ∧
    (query_all s url overload [(r1, t1), (r2, t2)]).2.1 =
      (if MAX_QUERY_PER_MINUTE ≤ s.query_count ∨ overload = true then
          [QEvent.sleep (api_sleep_time s.query_time_log)]
        else []) ++
        [QEvent.request url overload,
          QEvent.sleep (api_sleep_time
            ((if MAX_QUERY_PER_MINUTE ≤ s.query_count ∨ overload = true then
                ([] : List LogEntry)
              else s.query_time_log) ++ [⟨r1.request_id, t1⟩])),
          QEvent.request url true] ∧
    (query_all s url overload [(r1, t1), (r2, t2)]).2.1.countP QEvent.isRequestEvent = 2 := by
  have hne : ¬ (429 : Nat) = 200 := by decide
  by_cases hcond : MAX_QUERY_PER_MINUTE ≤ s.query_count ∨ overload = true
  · have hslept : (decide (MAX_QUERY_PER_MINUTE ≤ s.query_count) || overload) = true := by
      simp only [Bool.or_eq_true, decide_eq_true_eq]
      exact hcond
    simp [query_all, hslept, h429, h200, hnu, hne, recordRequest, hcond,
      List.countP_cons, List.countP_append, QEvent.isRequestEvent]
  · have hA : ¬ MAX_QUERY_PER_MINUTE ≤ s.query_count := fun h => hcond (Or.inl h)
    have hB : overload = false := by
      cases overload
      · rfl
      · exact absurd (Or.inr rfl) hcond
    have hslept : (decide (MAX_QUERY_PER_MINUTE ≤ s.query_count) || overload) = false := by
      simp [hA, hB]
    simp [query_all, hslept, h429, h200, hnu, hne, recordRequest, hcond,
      List.countP_cons, List.countP_append, QEvent.isRequestEvent]

theorem query_all_429_retry_witness :
    (query_all initPagState "u" false [(⟨429, 0, none, none⟩, 0), (⟨200, 7, none, none⟩, 1)]).2.2 =
      Outcome.ok ∧
    (query_all initPagState "u" false
        [(⟨429, 0, none, none⟩, 0), (⟨200, 7, none, none⟩, 1)]).2.1 =
      (if MAX_QUERY_PER_MINUTE ≤ initPagState.query_count ∨ false = true then
          [QEvent.sleep (api_sleep_time initPagState.query_time_log)]
        else []) ++
        [QEvent.request "u" false,
          QEvent.sleep (api_sleep_time
            ((if MAX_QUERY_PER_MINUTE ≤ initPagState.query_count ∨ false = true then
                ([] : List LogEntry)
              else initPagState.query_time_log) ++
              [⟨(⟨429, 0, none, none⟩ : PolyResponse).request_id, 0⟩])),
          QEvent.request "u" true] ∧
    (query_all initPagState "u" false
        [(⟨429, 0, none, none⟩, 0),
          (⟨200, 7, none, none⟩, 1)]).2.1.countP QEvent.isRequestEvent = 2 :=
  query_all_429_retry initPagState "u" false ⟨429, 0, none, none⟩ ⟨200, 7, none, none⟩ 0 1
    (by decide) (by decide) (by decide)

/-- Claim C10: the paginator maintains the invariant that `query_count`
equals the length of `query_time_log` at every point outside an in-flight
`query_all` call: both start at 0 and `[]` at construction, each issued
request appends exactly one log entry and increments the counter by one,
and the throttle reset clears both together, so any `query_all` call maps a
state satisfying the invariant to a state satisfying it. -/
theorem query_count_log_invariant :
    pag_inv initPagState ∧
    (∀ (s : PagState) (resp : PolyResponse) (now : Rat),
      (recordRequest s resp now).query_count = s.query_count + 1 ∧
      (recordRequest s resp now).query_time_log =
        s.query_time_log ++ [⟨resp.request_id, now⟩]) ∧
    (∀ (script : List (PolyResponse × Rat)) (s : PagState) (url : String) (overload : Bool),
      pag_inv s → pag_inv (query_all s url overload script).1) := by
  refine ⟨rfl, fun s resp now => ⟨rfl, rfl⟩, fun script => ?_⟩
  induction script with
  | nil =>
    intro s url ov hs
    simpa [query_all] using hs
  | cons p rest ih =>
    obtain ⟨resp, now⟩ := p
    intro s url ov hs
    have key : ∀ s1 : PagState, pag_inv s1 → pag_inv (recordRequest s1 resp now) := by
      intro s1 h1
      simp only [pag_inv, recordRequest, List.length_append, List.length_cons,
        List.length_nil] at h1 ⊢
      omega
    cases hsl : (decide (MAX_QUERY_PER_MINUTE ≤ s.query_count) || ov) <;>
      · simp only [query_all, hsl, if_true, if_false, Bool.false_eq_true,
          Bool.true_eq_false, ite_true, ite_false]
        split
        · split
          · exact ih _ _ _ (key _ (by first | exact hs | simp [pag_inv]))
          · exact key _ (by first | exact hs | simp [pag_inv])
        · split
          · exact ih _ _ _ (key _ (by first | exact hs | simp [pag_inv]))
          · exact key _ (by first | exact hs | simp [pag_inv])

theorem query_count_log_invariant_witness :
    pag_inv initPagState ∧
    (recordRequest initPagState ⟨200, 7, none, none⟩ 0).query_count =
        initPagState.query_count + 1 ∧
    (recordRequest initPagState ⟨200, 7, none, none⟩ 0).query_time_log =
        initPagState.query_time_log ++
          [⟨(⟨200, 7, none, none⟩ : PolyResponse).request_id, 0⟩] ∧
    pag_inv (query_all initPagState "u" false [(⟨200, 7, none, none⟩, 0)]).1 :=
  ⟨query_count_log_invariant.1,
   (query_count_log_invariant.2.1 initPagState ⟨200, 7, none, none⟩ 0).1,
   (query_count_log_invariant.2.1 initPagState ⟨200, 7, none, none⟩ 0).2,
   query_count_log_invariant.2.2 [(⟨200, 7, none, none⟩, 0)] initPagState "u" false
     query_count_log_invariant.1⟩

theorem sliceChunks_nil (size : Nat) : sliceChunks ([] : List α) size = [] := by
  rcases Nat.eq_zero_or_pos size with h | h
  · subst h; simp [sliceChunks, range_step]
  · have h0 : (size - 1) / size = 0 := Nat.div_eq_of_lt (by omega)
    simp [sliceChunks, range_step, h0]

theorem sliceChunks_cons (xs : List α) (size : Nat) (hxs : xs ≠ []) (hsize : 0 < size) :
    sliceChunks xs size = xs.take size :: sliceChunks (xs.drop size) size := by
  have hlen : 0 < xs.length := List.length_pos.mpr hxs
  have h1 : (xs.length + size - 1) / size = (xs.length - 1) / size + 1 := by
    rw [show xs.length + size - 1 = (xs.length - 1) + size from by omega,
      Nat.add_div_right _ hsize]
  have h2 : (xs.length - size + size - 1) / size = (xs.length - 1) / size := by
    rcases le_or_lt xs.length size with hle | hlt
    · have ha : xs.length - size + size - 1 = size - 1 := by omega
      rw [ha, Nat.div_eq_of_lt (by omega), Nat.div_eq_of_lt (by omega)]
    · have ha : xs.length - size + size - 1 = xs.length - 1 := by omega
      rw [ha]
  have hcount : (xs.length + size - 1) / size =
      ((xs.drop size).length + size - 1) / size + 1 := by
    rw [List.length_drop, h2, h1]
  simp only [sliceChunks, range_step, List.map_map, hcount, List.range_succ_eq_map,
    List.map_cons]
  congr 1
  · simp
  · refine List.map_congr_left fun j _ => ?_
    simp only [Function.comp_apply]
    rw [List.drop_drop, Nat.succ_mul, Nat.add_comm]

theorem sliceChunks_join_aux (size : Nat) (hsize : 0 < size) :
    ∀ (n : Nat) (xs : List α), xs.length ≤ n → (sliceChunks xs size).flatten = xs := by
  intro n
  induction n with
  | zero =>
    intro xs hx
    have hnil : xs = [] := List.eq_nil_of_length_eq_zero (by omega)
    subst hnil
    simp [sliceChunks_nil]
  | succ n ih =>
    intro xs hx
    rcases eq_or_ne xs [] with h | h
    · subst h; simp [sliceChunks_nil]
    · rw [sliceChunks_cons xs size h hsize]
      simp only [List.flatten]
      rw [ih (xs.drop size)
        (by rw [List.length_drop]; have := List.length_pos.mpr h; omega)]
      exact List.take_append_drop size xs

theorem sliceChunks_join (size : Nat) (hsize : 0 < size) (xs : List α) :
    (sliceChunks xs size).flatten = xs :=
  sliceChunks_join_aux size hsize xs.length xs le_rfl

theorem sliceChunks_len_2500 (xs : List α) (h : xs.length = 2500) :
    (sliceChunks xs 1000).map List.length = [1000, 1000, 500] := by
  have h1 : xs ≠ [] := by intro hn; rw [hn] at h; simp at h
  rw [sliceChunks_cons xs 1000 h1 (by norm_num)]
  have hd1 : (xs.drop 1000).length = 1500 := by rw [List.length_drop, h]
  have h2 : xs.drop 1000 ≠ [] := by intro hn; rw [hn] at hd1; simp at hd1
  rw [sliceChunks_cons _ 1000 h2 (by norm_num)]
  have hd2 : ((xs.drop 1000).drop 1000).length = 500 := by rw [List.length_drop, hd1]
  have h3 : (xs.drop 1000).drop 1000 ≠ [] := by intro hn; rw [hn] at hd2; simp at hd2
  rw [sliceChunks_cons _ 1000 h3 (by norm_num)]
  have hd3 : (((xs.drop 1000).drop 1000).drop 1000).length = 0 := by
    rw [List.length_drop, hd2]
  rw [List.eq_nil_of_length_eq_zero hd3, sliceChunks_nil]
  simp [List.length_take, h, hd1, hd2]

theorem filter_replicate_self (p : α → Bool) (a : α) (h : p a = true) (n : Nat) :
    (List.replicate n a).filter p = List.replicate n a := by
  induction n with
  | zero => rfl
  | succ n ih => simp [List.replicate_succ, List.filter_cons, h, ih]

/-- Claim C5: `download_options_quotes` splits the option tickers selected
for the given underlying ticker into consecutive chunks of
`BATCH_SIZE_OTICKERS = 1000` keys, dispatching one pool run per chunk: a
selected input of 2500 keys yields exactly the chunk sizes 1000, 1000, 500,
and for every input the concatenation of the chunks equals the selected
sequence. -/
theorem download_options_quotes_chunking (ticker : String) (o_tickers : List OptionTicker) :
    ((o_tickers.filter (fun x => x.underlying_ticker == ticker)).length = 2500 →
      (download_options_quotes_batches ticker o_tickers).map List.length =
        [1000, 1000, 500]) ∧
    (download_options_quotes_batches ticker o_tickers).flatten =
      o_tickers.filter (fun x => x.underlying_ticker == ticker) := by
  constructor
  · intro h
    simp only [download_options_quotes_batches, BATCH_SIZE_OTICKERS]
    exact sliceChunks_len_2500 _ h
  · simp only [download_options_quotes_batches, BATCH_SIZE_OTICKERS]
    exact sliceChunks_join 1000 (by norm_num) _

theorem download_options_quotes_chunking_witness :
    (download_options_quotes_batches "AAPL"
        (List.replicate 2500 (⟨"O:AAPL1", 1, "2024-01-19", "AAPL"⟩ : OptionTicker))).map
        List.length = [1000, 1000, 500] :=
  (download_options_quotes_chunking "AAPL"
      (List.replicate 2500 (⟨"O:AAPL1", 1, "2024-01-19", "AAPL"⟩ : OptionTicker))).1
    (by rw [filter_replicate_self _ _ (by decide), List.length_replicate])

/-- Claim C9 (implicit): `download_options_quotes` only dispatches download
work for option tickers whose `underlying_ticker` equals the `ticker`
argument; every option ticker in the input belonging to a different
underlying appears in no dispatched chunk. -/
theorem download_options_quotes_underlying_filter (ticker : String)
    (o_tickers : List OptionTicker) :
    (∀ c ∈ download_options_quotes_batches ticker o_tickers,
      ∀ x ∈ c, x ∈ o_tickers ∧ x.underlying_ticker = ticker) ∧
    (∀ x ∈ o_tickers, x.underlying_ticker ≠ ticker →
      ∀ c ∈ download_options_quotes_batches ticker o_tickers, x ∉ c) := by
  have hjoin : (download_options_quotes_batches ticker o_tickers).flatten =
      o_tickers.filter (fun x => x.underlying_ticker == ticker) := by
    simp only [download_options_quotes_batches, BATCH_SIZE_OTICKERS]
    exact sliceChunks_join 1000 (by norm_num) _
  constructor
  · intro c hc x hx
    have hxj : x ∈ (download_options_quotes_batches ticker o_tickers).flatten :=
      List.mem_flatten.mpr ⟨c, hc, hx⟩
    rw [hjoin] at hxj
    have hm := List.mem_filter.mp hxj
    exact ⟨hm.1, by simpa using hm.2⟩
  · intro x hx hne c hc hxc
    have hxj : x ∈ (download_options_quotes_batches ticker o_tickers).flatten :=
      List.mem_flatten.mpr ⟨c, hc, hxc⟩
    rw [hjoin] at hxj
    exact hne (by simpa using (List.mem_filter.mp hxj).2)

theorem download_options_quotes_underlying_filter_witness :
    (⟨"O:TSLA1", 2, "2024-01-19", "TSLA"⟩ : OptionTicker) ∉
      (download_options_quotes_batches "AAPL"
          [⟨"O:AAPL1", 1, "2024-01-19", "AAPL"⟩,
            ⟨"O:TSLA1", 2, "2024-01-19", "TSLA"⟩]).getD 0 [] :=
  (download_options_quotes_underlying_filter "AAPL"
      [⟨"O:AAPL1", 1, "2024-01-19", "AAPL"⟩, ⟨"O:TSLA1", 2, "2024-01-19", "TSLA"⟩]).2
    ⟨"O:TSLA1", 2, "2024-01-19", "TSLA"⟩ (by decide) (by decide) _ (by decide)

/-- Claim C8: if request-argument generation for a batch yields an empty
sequence (e.g. the input batch is empty), `api_pool_downloader` completes
normally without constructing a worker pool and without issuing any request
to the upstream endpoint; the empty batch is a no-op (at most the no-data
log line), not an error. -/
theorem api_pool_downloader_empty_noop {α β : Type} (gen : Option (List α) → List β)
    (args_data : Option (List α)) (batch_num : Option Nat)
    (h : gen args_data = []) :
    DlEvent.createPool ∉ api_pool_downloader gen args_data batch_num ∧
    (∀ b : β, DlEvent.request b ∉ api_pool_downloader gen args_data batch_num) ∧
    DlEvent.closePool ∉ api_pool_downloader gen args_data batch_num := by
  unfold api_pool_downloader
  rw [h]
  simp only [List.isEmpty_nil, if_true]
  rcases batch_num with _ | b
  · simp
  · by_cases hb : b ≠ 0 <;> simp [hb]

theorem api_pool_downloader_empty_noop_witness :
    DlEvent.createPool ∉
      api_pool_downloader (fun o : Option (List Nat) => (o.getD []).map Nat.succ)
        (some []) (some 1) ∧
    DlEvent.request 1 ∉
      api_pool_downloader (fun o : Option (List Nat) => (o.getD []).map Nat.succ)
        (some []) (some 1) ∧
    DlEvent.closePool ∉
      api_pool_downloader (fun o : Option (List Nat) => (o.getD []).map Nat.succ)
        (some []) (some 1) :=
  have h := api_pool_downloader_empty_noop
    (fun o : Option (List Nat) => (o.getD []).map Nat.succ) (some []) (some 1) rfl
  ⟨h.1, h.2.1 1, h.2.2⟩

/-- Counterexample to claim C7 as stated: with a deletion collaborator that
raises on ticker "A" and succeeds elsewhere, calling the removal loop on
["A", "B"] issues the deletion call for "A" only; the failure prevents the
deletion call for "B", so a failure of one ticker's deletion does abort the
rest of the batch. -/
theorem remove_tickers_abort_counterexample :
    (remove_tickers_from_universe (fun t => !(t == "A")) ["A", "B"]).1 = ["A"] ∧
    "B" ∉ (remove_tickers_from_universe (fun t => !(t == "A")) ["A", "B"]).1 := by
  decide

/-- Claim C7 (corrected): `remove_tickers_from_universe` issues exactly one
deletion call per input ticker, in the order given, as long as deletions
succeed; but since the loop body has no exception handling, a deletion that
raises stops the loop, so the deletion calls for the tickers after the
failing one are never issued and the failure propagates to the caller
instead of being reported per ticker. -/
theorem remove_tickers_sequencing (ok : String → Bool) :
    (∀ tickers : List String, (∀ t ∈ tickers, ok t = true) →
      remove_tickers_from_universe ok tickers = (tickers, none)) ∧
    (∀ (pre : List String) (bad : String) (post : List String),
      (∀ t ∈ pre, ok t = true) → ok bad = false →
      remove_tickers_from_universe ok (pre ++ bad :: post) = (pre ++ [bad], some bad)) := by
  constructor
  · intro tickers h
    induction tickers with
    | nil => rfl
    | cons t ts ih =>
      have ht : ok t = true := h t (by simp)
      simp only [remove_tickers_from_universe, ht, if_true]
      rw [ih (fun x hx => h x (by simp [hx]))]
  · intro pre bad post hpre hbad
    induction pre with
    | nil =>
      simp [remove_tickers_from_universe, hbad]
    | cons t ts ih =>
      have ht : ok t = true := hpre t (by simp)
      simp only [List.cons_append, remove_tickers_from_universe, ht, if_true,
        List.append_eq]
      rw [ih (fun x hx => hpre x (by simp [hx]))]

theorem remove_tickers_sequencing_witness :
    remove_tickers_from_universe (fun _ => true) ["A", "B"] = (["A", "B"], none) ∧
    remove_tickers_from_universe (fun t => t == "A") (["A"] ++ "B" :: ["C"]) =
      (["A"] ++ ["B"], some "B") :=
  ⟨(remove_tickers_sequencing (fun _ => true)).1 ["A", "B"] (by decide),
   (remove_tickers_sequencing (fun t => t == "A")).2 ["A"] "B" ["C"] (by decide)
     (by decide)⟩

/-- Counterexample to claim C6 as stated: the memo check in the partial-run
orchestrator is Python truthiness (`if not o_tickers`), so when the
options-prices stage (4) resolves the option-ticker lookup to an empty
lookup, the quotes stage (6) does not reuse it and queries again: with
stages {4, 6} selected and an oracle returning no option tickers, the trace
contains two resolution queries, not at most one. -/
theorem orchestrator_memo_counterexample :
    ¬ ((orchestratorStageRun [4, 6] [] fun _ => []).countP is_o_ticker_query ≤ 1) := by
  decide

/-- Claim C6 (corrected): in a partial run whose selected stages contain
quotes (6) but neither options prices (4) nor snapshots (5), the
orchestrator resolves the option-ticker lookup immediately before the quote
download and upload, with no resolution earlier in the trace; and once a
stage has resolved the lookup to a non-empty value within one invocation,
later selected stages reuse it instead of querying again, so the whole
trace contains at most one resolution query.  (The non-emptiness proviso is
forced by the falsy memo check; see the counterexample.) -/
theorem orchestrator_lazy_o_ticker_lookup (sel : List Nat) (tl : List (String × Nat))
    (oq : Bool → List OptionTicker) :
    (6 ∈ sel → 4 ∉ sel → 5 ∉ sel →
      (orchestratorStageRun sel tl oq).drop
          ((orchestratorStageRun sel tl oq).length - 3) =
        [OrchEvent.generateOTickerLookup false, OrchEvent.downloadOptionsQuotes,
          OrchEvent.uploadOptionsQuotes] ∧
      ((orchestratorStageRun sel tl oq).take
          ((orchestratorStageRun sel tl oq).length - 3)).countP is_o_ticker_query = 0) ∧
    (oq false ≠ [] → oq true ≠ [] →
      (orchestratorStageRun sel tl oq).countP is_o_ticker_query ≤ 1) := by
  constructor
  · intro h6 h4 h5
    by_cases h1 : 1 ∈ sel <;> by_cases h2 : 2 ∈ sel <;> by_cases h3 : 3 ∈ sel <;>
      by_cases hte : tl.isEmpty = true <;>
        simp [orchestratorStageRun, h1, h2, h3, h4, h5, h6, hte, falsy,
          is_o_ticker_query, List.countP_append, List.countP_cons]
  · intro hof hot
    have hf0 : (oq false).isEmpty = false := by
      cases hoq : oq false
      · exact absurd hoq hof
      · rfl
    have hf1 : (oq true).isEmpty = false := by
      cases hoq : oq true
      · exact absurd hoq hot
      · rfl
    by_cases h4 : 4 ∈ sel <;> by_cases h5 : 5 ∈ sel <;> by_cases h6 : 6 ∈ sel <;>
      by_cases h1 : 1 ∈ sel <;> by_cases h2 : 2 ∈ sel <;> by_cases h3 : 3 ∈ sel <;>
        by_cases hte : tl.isEmpty = true <;>
          simp [orchestratorStageRun, h1, h2, h3, h4, h5, h6, hte, hf0, hf1, falsy,
            is_o_ticker_query, List.countP_append, List.countP_cons]

theorem orchestrator_lazy_o_ticker_lookup_witness :
    ((orchestratorStageRun [6] [] fun _ => [⟨"O:A1", 1, "d", "A"⟩]).drop
        ((orchestratorStageRun [6] [] fun _ => [⟨"O:A1", 1, "d", "A"⟩]).length - 3) =
        [OrchEvent.generateOTickerLookup false, OrchEvent.downloadOptionsQuotes,
          OrchEvent.uploadOptionsQuotes] ∧
      ((orchestratorStageRun [6] [] fun _ => [⟨"O:A1", 1, "d", "A"⟩]).take
          ((orchestratorStageRun [6] [] fun _ => [⟨"O:A1", 1, "d", "A"⟩]).length - 3)).countP
        is_o_ticker_query = 0) ∧
    (orchestratorStageRun [4, 5, 6] [] fun _ => [⟨"O:A1", 1, "d", "A"⟩]).countP
        is_o_ticker_query ≤ 1 :=
  ⟨(orchestrator_lazy_o_ticker_lookup [6] [] fun _ => [⟨"O:A1", 1, "d", "A"⟩]).1
      (by decide) (by decide) (by decide),
   (orchestrator_lazy_o_ticker_lookup [4, 5, 6] [] fun _ => [⟨"O:A1", 1, "d", "A"⟩]).2
      (by decide) (by decide)⟩
